import Mathlib

/-!
Verification development for the old-photo-restore application.

The embedding below translates the two source files of the repository:
`src/services/gemini.ts` (the remote restoration client `restoreImage`)
and `src/App.tsx` (the photo collection, its lifecycle transitions,
`processPhoto`, `processAll`, `updateAdjustment`, `onDrop`, `removePhoto`).

Modelling conventions:
* JavaScript `string.includes(pat)` is `strContains`.
* JavaScript truthiness of an optional string (`undefined`/`""` are falsy)
  is `truthyStr`.
* The asynchronous restoration promise is modelled by `RestoreBehavior`:
  either it never settles, or it settles after a given number of
  milliseconds with a value or a thrown message.  The 90-second timer of
  `processPhoto` is created before the base64 conversion, so the race is
  decided against `convDelay + settleDelay`.
* React `setPhotos(prev => prev.map(...))` updates become whole-list `map`s
  over the photo collection, exactly mirroring the arrow functions in the
  source (`startOne`, `completeOne`, `failOne`, `adjustOne`).
-/

instance : DecidableEq (Except String String) := fun x y =>
  match x, y with
  | Except.ok a, Except.ok b =>
      if h : a = b then Decidable.isTrue (by rw [h])
      else Decidable.isFalse (fun he => h (Except.ok.inj he))
  | Except.error a, Except.error b =>
      if h : a = b then Decidable.isTrue (by rw [h])
      else Decidable.isFalse (fun he => h (Except.error.inj he))
  | Except.ok _, Except.error _ => Decidable.isFalse (fun he => Except.noConfusion he)
  | Except.error _, Except.ok _ => Decidable.isFalse (fun he => Except.noConfusion he)

/-- JavaScript `s.includes(pat)`: `pat` occurs as a contiguous substring of `s`. -/
def strContains (s pat : String) : Bool :=
  (List.range (s.toList.length + 1)).any
    (fun i => if (s.toList.drop i).take pat.toList.length = pat.toList then true else false)

/-- JavaScript truthiness of an optional string: `undefined` and `""` are falsy. -/
def truthyStr : Option String → Bool
  | none => false
  | some s => if s = "" then false else true

/-! ## Remote restoration client (src/services/gemini.ts) -/

/-- the inlineData payload of a response content part. -/
structure InlineData where
  mimeType : String
  data : String
deriving DecidableEq

/-- one content part of a candidate: image bytes and/or text. -/
structure ContentPart where
  inlineData : Option InlineData
  text : Option String
deriving DecidableEq

/-- the content field of a candidate, holding the optional list of parts. -/
structure Content where
  parts : Option (List ContentPart)
deriving DecidableEq

/-- one candidate of the remote response. -/
structure Candidate where
  finishReason : Option String
  content : Option Content
deriving DecidableEq

/-- the remote response: an optional candidate list. -/
structure GenResponse where
  candidates : Option (List Candidate)
deriving DecidableEq

def emptyCandidatesMsg : String := "Gemini 未返回任何候选结果。可能是由于安全过滤或请求被拒绝。"

def stopReasonMsg (r : String) : String := "生成已停止，原因: " ++ r ++ "。请尝试上传其他照片。"

def noPartsMsg : String := "Gemini 返回的响应中没有内容部分 (parts)。"

def refusedTextMsg (t : String) : String := "模型未返回图像，而是返回了文字说明: " ++ t

def noImageMsg : String := "Gemini 未返回有效的图像数据。"

def geminiNetworkMsg : String := "网络连接失败，请检查您的网络设置或 API 密钥是否有效。"

def geminiSafetyMsg : String := "由于安全政策，该照片无法处理。请尝试上传其他照片。"

/-- the data URL built from an image part: `data:MIME;base64,DATA`. -/
def dataUrl (d : InlineData) : String := "data:" ++ d.mimeType ++ ";base64," ++ d.data

/-- the `for (const part of parts)` loop: first part carrying `inlineData`. -/
def firstImageData : List ContentPart → Option InlineData
  | [] => none
  | q :: rest =>
    match q.inlineData with
    | some d => some d
    | none => firstImageData rest

/-- the body of the `try` block of `restoreImage` after the remote call:
classifies the response into a data URL or a thrown message. -/
def classifyResponse (resp : GenResponse) : Except String String :=
  match resp.candidates.bind List.head? with
  | none => Except.error emptyCandidatesMsg
  | some candidate =>
    if truthyStr candidate.finishReason ∧ candidate.finishReason ≠ some "STOP" then
      Except.error (stopReasonMsg (candidate.finishReason.getD ""))
    else
      match candidate.content.bind Content.parts with
      | none => Except.error noPartsMsg
      | some [] => Except.error noPartsMsg
      | some parts =>
        match firstImageData parts with
        | some d => Except.ok (dataUrl d)
        | none =>
          match parts.find? (fun q => truthyStr q.text) with
          | some tp => Except.error (refusedTextMsg (tp.text.getD ""))
          | none => Except.error noImageMsg

/-- the `catch` block of `restoreImage`: re-maps a thrown message whose text
signals a connectivity failure or a safety rejection, and rethrows the rest. -/
def remapThrown (msg : String) : String :=
  if strContains msg "fetch failed" then geminiNetworkMsg
  else if strContains msg "Safety" then geminiSafetyMsg
  else msg

/-- the function `restoreImage` applied to a received remote response: the classification
of the `try` block, with every thrown message filtered by the `catch` block. -/
def restoreImage (resp : GenResponse) : Except String String :=
  match classifyResponse resp with
  | Except.ok url => Except.ok url
  | Except.error msg => Except.error (remapThrown msg)

/-! ## Photo collection and lifecycle (src/App.tsx) -/

/-- the `status` field of a `PhotoItem`. -/
inductive Status
  | pending
  | processing
  | completed
  | error
deriving DecidableEq

/-- the four display-time adjustment parameters of a photo. -/
structure Adjustments where
  brightness : Int
  contrast : Int
  saturation : Int
  sharpness : Int
deriving DecidableEq

/-- an uploaded file (abstract content plus mime type). -/
structure DroppedFile where
  name : String
  mime : String
deriving DecidableEq

/-- one uploaded photo and its processing lifecycle, as in the
`PhotoItem` interface of `App.tsx`. -/
structure PhotoItem where
  id : String
  file : DroppedFile
  preview : String
  status : Status
  result : Option String
  error : Option String
  adjustments : Adjustments
deriving DecidableEq

/-- the call `URL.createObjectURL(file)`, modelled as an injective tagging of the file. -/
def objectURL (f : DroppedFile) : String := "blob:" ++ f.name

/-- the adjustment defaults set in `onDrop`. -/
def initialAdjustments : Adjustments := ⟨100, 100, 100, 0⟩

/-- the object literal built for each accepted file in `onDrop`;
`newId` stands for the value drawn from
`Math.random().toString(36).substring(7)`. -/
def mkPhoto (newId : String) (f : DroppedFile) : PhotoItem :=
  ⟨newId, f, objectURL f, Status.pending, none, none, initialAdjustments⟩

/-- the handler `onDrop`: appends one new pending item per accepted file, pairing each
file with the id drawn for it from the random source `ids`. -/
def onDrop (ids : List String) (files : List DroppedFile) (prev : List PhotoItem) :
    List PhotoItem :=
  prev ++ List.zipWith mkPhoto ids files

/-- the handler `removePhoto`: drops every item whose id matches (the source filter
keeps `p` when `p.id === id ? false : true`). -/
def removePhoto (photos : List PhotoItem) (targetId : String) : List PhotoItem :=
  photos.filter (fun p => if p.id = targetId then false else true)

/-- the adjustment keys of `PhotoItem.adjustments`. -/
inductive AdjKey
  | brightness
  | contrast
  | saturation
  | sharpness
deriving DecidableEq

/-- the computed-property write `{ ...adjustments, [key]: value }`. -/
def setAdj (a : Adjustments) (k : AdjKey) (v : Int) : Adjustments :=
  match k with
  | AdjKey.brightness => { a with brightness := v }
  | AdjKey.contrast => { a with contrast := v }
  | AdjKey.saturation => { a with saturation := v }
  | AdjKey.sharpness => { a with sharpness := v }

/-- reading one adjustment value by key. -/
def getAdj (a : Adjustments) : AdjKey → Int
  | AdjKey.brightness => a.brightness
  | AdjKey.contrast => a.contrast
  | AdjKey.saturation => a.saturation
  | AdjKey.sharpness => a.sharpness

/-- the arrow function inside `updateAdjustment`: it replaces the value
stored at the named key of the matching item and keeps every other item
unchanged. -/
def adjustOne (targetId : String) (k : AdjKey) (v : Int) (p : PhotoItem) : PhotoItem :=
  if p.id = targetId then { p with adjustments := setAdj p.adjustments k v } else p

/-- the handler `updateAdjustment(id, key, value)` over the whole collection. -/
def updateAdjustment (photos : List PhotoItem) (targetId : String) (k : AdjKey) (v : Int) :
    List PhotoItem :=
  photos.map (adjustOne targetId k v)

/-- the arrow function of the start transition inside the first
`setPhotos` of `processPhoto`: it sets the status of the matching item to
processing and keeps every other item unchanged. -/
def startOne (targetId : String) (p : PhotoItem) : PhotoItem :=
  if p.id = targetId then { p with status := Status.processing } else p

/-- the arrow function of the success transition of `processPhoto`: it
sets the status of the matching item to completed and stores the result.
Note that the object spread keeps every other field, including a prior
error message. -/
def completeOne (targetId : String) (res : String) (p : PhotoItem) : PhotoItem :=
  if p.id = targetId then { p with status := Status.completed, result := some res } else p

/-- the arrow function of the failure transition of `processPhoto`: it
sets the status of the matching item to error and stores the classified
message.  Note that the object spread keeps every other field, including a
prior result. -/
def failOne (targetId : String) (msg : String) (p : PhotoItem) : PhotoItem :=
  if p.id = targetId then { p with status := Status.error, error := some msg } else p

def TIMEOUT_MS : Nat := 90000

/-- the message of the rejection raised by the 90-second timer. -/
def timeoutMsg : String := "请求超时，请重试"

def credMsg : String := "API 密钥失效，请重新选择"

def quotaMsg : String := "API 配额已耗尽。请稍后再试，或在 Google AI Studio 中检查您的配额限制。"

def appNetworkMsg : String := "网络连接失败，请检查您的网络设置。"

def genericFailMsg : String := "修复失败，请重试"

/-- the behaviour of one restoration promise: `none` if it never settles,
otherwise the delay (in ms, counted from the invocation of `restoreImage`)
until it settles and the value it settles with. -/
structure RestoreBehavior where
  settle : Option (Nat × Except String String)
deriving DecidableEq

/-- the environment of one `processPhoto` call: how long the
`fileToBase64` conversion takes and how the restoration promise behaves. -/
structure ProcEnv where
  convDelay : Nat
  restore : RestoreBehavior
deriving DecidableEq

/-- the race `Promise.race([restorationPromise, timeoutPromise])`.  The timer was
created before the conversion, so the restoration (invoked `convDelay` ms
later) wins only if `convDelay` plus its own settle delay stays below the
90000 ms deadline; otherwise the rejection of the timer wins. -/
def raceOutcome (convDelay : Nat) (b : RestoreBehavior) : Except String String :=
  match b.settle with
  | none => Except.error timeoutMsg
  | some (d, res) => if convDelay + d < TIMEOUT_MS then res else Except.error timeoutMsg

/-- the `catch` block of `processPhoto`: turns the failure message into the
user-facing error string (`errorMessage`). -/
def classifyFailure (msg : String) : String :=
  if strContains msg "Requested entity was not found" then credMsg
  else if strContains msg "quota" ∨ strContains msg "429" ∨
      strContains msg "RESOURCE_EXHAUSTED" then quotaMsg
  else if strContains msg "fetch failed" then appNetworkMsg
  else if msg = "" then genericFailMsg
  else msg

/-- the gathered outcome of an orchestration call: the photo collection,
the `hasApiKey` flag, and how many restoration calls were issued. -/
structure AppResult where
  photos : List PhotoItem
  hasApiKey : Option Bool
  remoteCalls : Nat
deriving DecidableEq

/-- the orchestration step `processPhoto(photo)`: guarded start transition, base64 conversion,
restoration raced against the 90-second timer, then the success or failure
transition; the `catch` block also downgrades `hasApiKey` on an
entity-not-found failure. -/
def processPhoto (photos : List PhotoItem) (hasApiKey : Option Bool)
    (photo : PhotoItem) (env : ProcEnv) : AppResult :=
  if photo.status = Status.processing ∨ photo.status = Status.completed then
    ⟨photos, hasApiKey, 0⟩
  else
    match raceOutcome env.convDelay env.restore with
    | Except.ok res =>
        ⟨(photos.map (startOne photo.id)).map (completeOne photo.id res), hasApiKey, 1⟩
    | Except.error msg =>
        ⟨(photos.map (startOne photo.id)).map (failOne photo.id (classifyFailure msg)),
          (if strContains msg "Requested entity was not found" then some false else hasApiKey),
          1⟩

/-- the eligibility filter of `processAll`: the item status is pending
or error. -/
def eligible (p : PhotoItem) : Bool :=
  if p.status = Status.pending ∨ p.status = Status.error then true else false

/-- one iteration of the `for (const photo of pendingPhotos)` loop. -/
def processStep (envs : PhotoItem → ProcEnv) (acc : AppResult) (photo : PhotoItem) :
    AppResult :=
  let r := processPhoto acc.photos acc.hasApiKey photo (envs photo)
  ⟨r.photos, r.hasApiKey, acc.remoteCalls + r.remoteCalls⟩

/-- the sequential loop of `processAll` over an already-taken snapshot. -/
def runBatch (envs : PhotoItem → ProcEnv) (l : List PhotoItem) (acc : AppResult) :
    AppResult :=
  List.foldl (processStep envs) acc l

/-- the batch entry `processAll`: snapshots the eligible subset at call time, then awaits
`processPhoto` on each snapshot element in order. -/
def processAll (photos : List PhotoItem) (hasApiKey : Option Bool)
    (envs : PhotoItem → ProcEnv) : AppResult :=
  runBatch envs (photos.filter eligible) ⟨photos, hasApiKey, 0⟩

/-! ## Concrete inputs used by counterexamples and witnesses -/

def wfileA : DroppedFile := ⟨"a.png", "image/png"⟩

def c1photo : PhotoItem :=
  ⟨"id1", wfileA, "blob:a.png", Status.error, none, some "boom", initialAdjustments⟩

def c1env : ProcEnv := ⟨0, ⟨some (0, Except.ok "IMG")⟩⟩

def c2photo : PhotoItem :=
  ⟨"id2", wfileA, "blob:a.png", Status.completed, some "res", none, initialAdjustments⟩

def c8file1 : DroppedFile := ⟨"x.png", "image/png"⟩

def c8file2 : DroppedFile := ⟨"y.png", "image/png"⟩

def c9resp : GenResponse :=
  ⟨some [⟨some "STOP", some ⟨some [⟨none, some "Safety policy violation"⟩]⟩⟩]⟩

/-! ## Helper lemmas about the per-item transition functions -/

theorem startOne_id (a : String) (p : PhotoItem) : (startOne a p).id = p.id := by
  unfold startOne; split <;> rfl

theorem completeOne_id (a res : String) (p : PhotoItem) :
    (completeOne a res p).id = p.id := by
  unfold completeOne; split <;> rfl

theorem failOne_id (a msg : String) (p : PhotoItem) : (failOne a msg p).id = p.id := by
  unfold failOne; split <;> rfl

theorem complete_start (a res : String) (p : PhotoItem) :
    completeOne a res (startOne a p) =
      if p.id = a then { p with status := Status.completed, result := some res } else p := by
  unfold startOne completeOne
  by_cases h : p.id = a <;> simp [h]

theorem fail_start (a msg : String) (p : PhotoItem) :
    failOne a msg (startOne a p) =
      if p.id = a then { p with status := Status.error, error := some msg } else p := by
  unfold startOne failOne
  by_cases h : p.id = a <;> simp [h]

/-! ## C1 -/

/-- C1 counterexample: an item in `error` state carrying `errorInfo = "boom"`
is retried and succeeds; the completed transition stores the result but the
spread keeps the stale `errorInfo`, so both are populated afterwards,
refuting the claim that the processing-to-completed transition clears any
prior errorInfo. -/
theorem c1_counterexample :
    (processPhoto [c1photo] none c1photo c1env).photos.map
        (fun p => (p.status, p.result, p.error)) =
      [(Status.completed, some "IMG", some "boom")] := by decide

/-- C1 amended: the processing-to-completed transition stores the result and
leaves any prior errorInfo in place (it is not cleared), and the
processing-to-error transition stores the errorInfo and leaves any prior
result in place; hence after an error-retry-success sequence both fields are
populated. -/
theorem c1_amended (p : PhotoItem) (targetId res msg : String) (hid : p.id = targetId) :
    (completeOne targetId res p).result = some res ∧
    (completeOne targetId res p).error = p.error ∧
    (completeOne targetId res p).status = Status.completed ∧
    (failOne targetId msg p).error = some msg ∧
    (failOne targetId msg p).result = p.result ∧
    (failOne targetId msg p).status = Status.error := by
  unfold completeOne failOne
  simp [hid]

/-- C1 witness: the amended transition facts evaluated on a concrete item. -/
theorem c1_witness :
    (completeOne "id1" "IMG" c1photo).result = some "IMG" ∧
    (completeOne "id1" "IMG" c1photo).error = c1photo.error ∧
    (completeOne "id1" "IMG" c1photo).status = Status.completed ∧
    (failOne "id1" "m" c1photo).error = some "m" ∧
    (failOne "id1" "m" c1photo).result = c1photo.result ∧
    (failOne "id1" "m" c1photo).status = Status.error :=
  c1_amended c1photo "id1" "IMG" "m" rfl

/-! ## C2 -/

/-- C2 counterexample: `updateAdjustment` stores saturation 250 verbatim,
above the declared maximum 200, refuting the claim that stored values are
clamped to the declared ranges. -/
theorem c2_counterexample :
    (updateAdjustment [c2photo] "id2" AdjKey.saturation 250).map
        (fun p => p.adjustments.saturation) = [250] ∧ ¬ ((250 : Int) ≤ 200) := by decide

/-- C2 amended: `updateAdjustment` stores the given numeric value verbatim
for the named key of the matching item; no clamping to the declared ranges
is performed (range enforcement exists only in the slider UI attributes). -/
theorem c2_amended (photos : List PhotoItem) (targetId : String) (k : AdjKey) (v : Int)
    (j : Nat) (hj : j < photos.length) (hid : (photos.get ⟨j, hj⟩).id = targetId) :
    ∀ hj2 : j < (updateAdjustment photos targetId k v).length,
      getAdj ((updateAdjustment photos targetId k v).get ⟨j, hj2⟩).adjustments k = v := by
  intro hj2
  have hg : (updateAdjustment photos targetId k v).get ⟨j, hj2⟩ =
      adjustOne targetId k v (photos.get ⟨j, hj⟩) := by
    simp [updateAdjustment, List.get_eq_getElem, List.getElem_map]
  rw [hg]
  unfold adjustOne
  rw [if_pos hid]
  cases k <;> rfl

/-- C2 witness: the amended storage fact evaluated on a concrete item,
with the out-of-range input 250. -/
theorem c2_witness :
    getAdj ((updateAdjustment [c2photo] "id2" AdjKey.saturation 250).get
        ⟨0, by decide⟩).adjustments AdjKey.saturation = 250 :=
  c2_amended [c2photo] "id2" AdjKey.saturation 250 0 (by decide) (by decide) (by decide)

/-! ## C8 -/

/-- C8 counterexample: two distinct items created in one `onDrop` whose
random draws coincide receive the same id, refuting the claim that ids of
distinct items always differ. -/
theorem c8_counterexample :
    ((onDrop ["ab", "ab"] [c8file1, c8file2] []).map PhotoItem.id = ["ab", "ab"]) ∧
    (onDrop ["ab", "ab"] [c8file1, c8file2] []).get? 0 ≠
      (onDrop ["ab", "ab"] [c8file1, c8file2] []).get? 1 ∧
    ¬ ((onDrop ["ab", "ab"] [c8file1, c8file2] []).map PhotoItem.id).Nodup := by decide

theorem zipWith_mkPhoto_ids (ids : List String) (files : List DroppedFile) :
    (List.zipWith mkPhoto ids files).map PhotoItem.id = ids.take files.length := by
  induction ids generalizing files with
  | nil => simp
  | cons i t ih =>
    cases files with
    | nil => simp
    | cons f fs => simp [List.zipWith, mkPhoto, ih]

/-- C8 amended: each id is drawn from the random source with no uniqueness
check against existing or removed items; ids of the resulting collection are
pairwise distinct exactly when the drawn values used are distinct from each
other and from the surviving ids. -/
theorem c8_amended (prev : List PhotoItem) (ids : List String) (files : List DroppedFile)
    (h : ((prev.map PhotoItem.id) ++ ids.take files.length).Nodup) :
    ((onDrop ids files prev).map PhotoItem.id).Nodup := by
  unfold onDrop
  rw [List.map_append, zipWith_mkPhoto_ids]
  exact h

/-- C8 witness: distinct draws yield distinct ids on a concrete drop. -/
theorem c8_witness :
    ((onDrop ["ab", "cd"] [c8file1, c8file2] []).map PhotoItem.id).Nodup :=
  c8_amended [] ["ab", "cd"] [c8file1, c8file2] (by decide)

/-! ## C9 -/

/-- C9: a response whose only fragment is text containing "Safety" is first
turned into the model-refused-text message, which the catch block then
re-inspects and re-maps to the content-blocked classification, so
`restoreImage` surfaces the content-blocked error rather than the
model-refused-text error. -/
theorem c9_theorem :
    restoreImage c9resp = Except.error geminiSafetyMsg ∧
    strContains (refusedTextMsg "Safety policy violation") "Safety" = true ∧
    restoreImage c9resp ≠ Except.error (refusedTextMsg "Safety policy violation") := by
  decide

/-! ## C3 -/

def c3respA : GenResponse := ⟨some [⟨none, some ⟨some [⟨none, some "Safety concerns"⟩]⟩⟩]⟩

def c3respB : GenResponse := ⟨some [⟨some "", none⟩]⟩

def c3cand : Candidate := ⟨none, some ⟨some [⟨some ⟨"image/png", "XYZ"⟩, none⟩]⟩⟩

def c3wresp : GenResponse := ⟨some [c3cand]⟩

theorem remapThrown_emptyCandidates : remapThrown emptyCandidatesMsg = emptyCandidatesMsg := by
  decide

theorem remapThrown_noParts : remapThrown noPartsMsg = noPartsMsg := by decide

theorem remapThrown_noImage : remapThrown noImageMsg = noImageMsg := by decide

/-- C3 counterexample: (a) a text-only response whose text contains "Safety"
does not surface the model-refused-text error carrying that text, but the
re-mapped content-blocked error; (b) a candidate whose finish reason is the
empty string (present and different from "STOP") is not classified as a
stop-reason error, the empty string being falsy. -/
theorem c3_counterexample :
    restoreImage c3respA = Except.error geminiSafetyMsg ∧
    geminiSafetyMsg ≠ refusedTextMsg "Safety concerns" ∧
    restoreImage c3respB = Except.error noPartsMsg ∧
    noPartsMsg ≠ stopReasonMsg "" := by decide

/-- C3 amended: `restoreImage` fails with the empty-response error when no
candidate is present; fails with the stop-reason error when the finish
reason is present, non-empty and differs from "STOP"; fails with the
no-parts error when the candidate has no content fragments; returns the
first image-bearing fragment as a data URL when one exists; fails with the
model-refused-text error when only (non-empty) text fragments are present;
and otherwise fails with the unknown error — except that every failure
message is additionally re-inspected by the catch block, which replaces a
message containing "fetch failed" by the connectivity error and a message
containing "Safety" by the content-blocked error. -/
theorem c3_amended (resp : GenResponse) :
    (resp.candidates.bind List.head? = none →
      restoreImage resp = Except.error emptyCandidatesMsg) ∧
    (∀ c, resp.candidates.bind List.head? = some c →
      (∀ fr, c.finishReason = some fr → fr ≠ "" → fr ≠ "STOP" →
        restoreImage resp = Except.error (remapThrown (stopReasonMsg fr))) ∧
      ((c.finishReason = none ∨ c.finishReason = some "" ∨ c.finishReason = some "STOP") →
        ((c.content.bind Content.parts = none ∨ c.content.bind Content.parts = some []) →
          restoreImage resp = Except.error noPartsMsg) ∧
        (∀ parts, c.content.bind Content.parts = some parts → parts ≠ [] →
          (∀ d, firstImageData parts = some d →
            restoreImage resp = Except.ok (dataUrl d)) ∧
          (firstImageData parts = none →
            (∀ tp, parts.find? (fun q => truthyStr q.text) = some tp →
              restoreImage resp =
                Except.error (remapThrown (refusedTextMsg (tp.text.getD "")))) ∧
            (parts.find? (fun q => truthyStr q.text) = none →
              restoreImage resp = Except.error noImageMsg))))) := by
  have hfalse : ∀ c : Candidate,
      (c.finishReason = none ∨ c.finishReason = some "" ∨ c.finishReason = some "STOP") →
      ¬ (truthyStr c.finishReason ∧ c.finishReason ≠ some "STOP") := by
    intro c hc
    rcases hc with h | h | h <;> simp [truthyStr, h]
  constructor
  · intro hc
    simp [restoreImage, classifyResponse, hc, remapThrown_emptyCandidates]
  · intro c hc
    constructor
    · intro fr hfr h1 h2
      have ht : truthyStr (some fr) = true := by simp [truthyStr, h1]
      simp [restoreImage, classifyResponse, hc, hfr, ht, h2]
    · intro hquiet
      have hcond := hfalse c hquiet
      constructor
      · intro hp
        rcases hp with h | h <;>
          simp [restoreImage, classifyResponse, hc, if_neg hcond, h, remapThrown_noParts]
      · intro parts hp hne
        constructor
        · intro d hd
          cases parts with
          | nil => exact absurd rfl hne
          | cons q rest =>
            simp [restoreImage, classifyResponse, hc, if_neg hcond, hp, hd]
        · intro hnone
          constructor
          · intro tp htp
            cases parts with
            | nil => exact absurd rfl hne
            | cons q rest =>
              simp [restoreImage, classifyResponse, hc, if_neg hcond, hp, hnone, htp]
          · intro hfind
            cases parts with
            | nil => exact absurd rfl hne
            | cons q rest =>
              simp [restoreImage, classifyResponse, hc, if_neg hcond, hp, hnone, hfind,
                remapThrown_noImage]

/-- C3 witness: the amended classification applied to a concrete response
carrying an image fragment. -/
theorem c3_witness :
    restoreImage c3wresp = Except.ok (dataUrl ⟨"image/png", "XYZ"⟩) :=
  ((((c3_amended c3wresp).2 c3cand rfl).2 (Or.inl rfl)).2
      [⟨some ⟨"image/png", "XYZ"⟩, none⟩] rfl (by decide)).1 ⟨"image/png", "XYZ"⟩ rfl

/-! ## Membership lemmas for the transition maps of processPhoto -/

theorem mem_fail_map (a m : String) (photos : List PhotoItem) (q : PhotoItem)
    (hq : q ∈ (photos.map (startOne a)).map (failOne a m)) (hid : q.id = a) :
    q.status = Status.error ∧ q.error = some m := by
  rcases List.mem_map.mp hq with ⟨q1, hq1, rfl⟩
  rcases List.mem_map.mp hq1 with ⟨p, hp, rfl⟩
  have hpid : p.id = a := by
    rw [failOne_id, startOne_id] at hid
    exact hid
  constructor <;> rw [fail_start, if_pos hpid]

theorem mem_complete_map (a res : String) (photos : List PhotoItem) (q : PhotoItem)
    (hq : q ∈ (photos.map (startOne a)).map (completeOne a res)) (hid : q.id = a) :
    q.status = Status.completed ∧ q.result = some res := by
  rcases List.mem_map.mp hq with ⟨q1, hq1, rfl⟩
  rcases List.mem_map.mp hq1 with ⟨p, hp, rfl⟩
  have hpid : p.id = a := by
    rw [completeOne_id, startOne_id] at hid
    exact hid
  constructor <;> rw [complete_start, if_pos hpid]

theorem eligible_not_guarded (photo : PhotoItem)
    (h : photo.status = Status.pending ∨ photo.status = Status.error) :
    ¬ (photo.status = Status.processing ∨ photo.status = Status.completed) := by
  rcases h with h | h <;> simp [h]

/-! ## C5 -/

def c5photo : PhotoItem :=
  ⟨"id5", wfileA, "blob:a.png", Status.pending, none, none, initialAdjustments⟩

def c5env : ProcEnv := ⟨0, ⟨some (0, Except.error "xx 429")⟩⟩

/-- C5: whenever the raced restoration rejects with message `msg`, the
stored user-facing message is determined by `msg` in the order of the catch
block: an entity-not-found signal downgrades the credential flag and stores
the credential-invalid message; otherwise a quota/429/RESOURCE_EXHAUSTED
signal stores the quota message; otherwise a fetch-failure signal stores
the connectivity message; otherwise the raw message (or the generic default
when empty) is stored; and every matching item transitions to `error` with
that message — the failure never escapes `processPhoto`, which is total. -/
theorem c5_theorem (photos : List PhotoItem) (hk : Option Bool) (photo : PhotoItem)
    (env : ProcEnv) (msg : String)
    (helig : photo.status = Status.pending ∨ photo.status = Status.error)
    (hfail : raceOutcome env.convDelay env.restore = Except.error msg) :
    (strContains msg "Requested entity was not found" = true →
      (processPhoto photos hk photo env).hasApiKey = some false ∧
      classifyFailure msg = credMsg) ∧
    (strContains msg "Requested entity was not found" = false →
      (processPhoto photos hk photo env).hasApiKey = hk) ∧
    (strContains msg "Requested entity was not found" = false →
      (strContains msg "quota" = true ∨ strContains msg "429" = true ∨
        strContains msg "RESOURCE_EXHAUSTED" = true) →
      classifyFailure msg = quotaMsg) ∧
    (strContains msg "Requested entity was not found" = false →
      strContains msg "quota" = false → strContains msg "429" = false →
      strContains msg "RESOURCE_EXHAUSTED" = false →
      strContains msg "fetch failed" = true →
      classifyFailure msg = appNetworkMsg) ∧
    (strContains msg "Requested entity was not found" = false →
      strContains msg "quota" = false → strContains msg "429" = false →
      strContains msg "RESOURCE_EXHAUSTED" = false →
      strContains msg "fetch failed" = false →
      classifyFailure msg = (if msg = "" then genericFailMsg else msg)) ∧
    (∀ q ∈ (processPhoto photos hk photo env).photos, q.id = photo.id →
      q.status = Status.error ∧ q.error = some (classifyFailure msg)) := by
  have hg := eligible_not_guarded photo helig
  have hpp : processPhoto photos hk photo env =
      ⟨(photos.map (startOne photo.id)).map (failOne photo.id (classifyFailure msg)),
        (if strContains msg "Requested entity was not found" then some false else hk), 1⟩ := by
    unfold processPhoto
    rw [if_neg hg, hfail]
  refine ⟨?_, ?_, ?_, ?_, ?_, ?_⟩
  · intro h
    rw [hpp]
    exact ⟨by simp [h], by simp [classifyFailure, h]⟩
  · intro h
    rw [hpp]
    simp [h]
  · intro h hq
    rcases hq with h1 | h1 | h1 <;> simp [classifyFailure, h, h1]
  · intro hA hB hC hD hE
    simp [classifyFailure, hA, hB, hC, hD, hE]
  · intro hA hB hC hD hE
    simp [classifyFailure, hA, hB, hC, hD, hE]
  · intro q hq hid
    rw [hpp] at hq
    exact mem_fail_map photo.id (classifyFailure msg) photos q hq hid

/-- C5 witness: a concrete quota-signalled failure stores the quota message
and leaves the credential flag untouched. -/
theorem c5_witness :
    classifyFailure "xx 429" = quotaMsg ∧
    (processPhoto [c5photo] none c5photo c5env).hasApiKey = none := by
  have h := c5_theorem [c5photo] none c5photo c5env "xx 429" (Or.inl rfl) (by decide)
  exact ⟨h.2.2.1 (by decide) (Or.inr (Or.inl (by decide))), h.2.1 (by decide)⟩

/-! ## C6 -/

def c6photo : PhotoItem :=
  ⟨"id6", wfileA, "blob:a.png", Status.pending, none, none, initialAdjustments⟩

def c6env : ProcEnv := ⟨0, ⟨some (90000, Except.ok "late")⟩⟩

def c6final : PhotoItem :=
  ⟨"id6", wfileA, "blob:a.png", Status.error, none, some timeoutMsg, initialAdjustments⟩

/-- C6 counterexample: the timer is created before the base64 conversion,
so a conversion taking 60000 ms followed by a restoration settling 40000 ms
after its own invocation (well within 90 s of the restoration step) still
loses the race and the item ends in `error` with the timeout message,
refuting the claim that the deadline is measured from the invocation of the
restoration step. -/
theorem c6_counterexample :
    ((40000 : Nat) < 90000) ∧
    (processPhoto [⟨"idX", wfileA, "blob:a.png", Status.pending, none, none,
        initialAdjustments⟩] none
      ⟨"idX", wfileA, "blob:a.png", Status.pending, none, none, initialAdjustments⟩
      ⟨60000, ⟨some (40000, Except.ok "IMG")⟩⟩).photos.map
        (fun p => (p.status, p.error)) = [(Status.error, some timeoutMsg)] := by decide

/-- C6 amended: the restoration promise is raced against a 90000 ms timer
created before the source-to-base64 conversion, so conversion time counts
against the deadline; whenever the restoration has not settled within
90000 ms of that point (in particular when it never settles), the race
rejects with the timeout message, which classifies to itself, and every
matching item transitions to `error` carrying the timeout message —
regardless of the value the underlying call would later settle with. -/
theorem c6_amended (photos : List PhotoItem) (hk : Option Bool) (photo : PhotoItem)
    (env : ProcEnv)
    (helig : photo.status = Status.pending ∨ photo.status = Status.error)
    (hlate : ∀ d res, env.restore.settle = some (d, res) →
      TIMEOUT_MS ≤ env.convDelay + d) :
    raceOutcome env.convDelay env.restore = Except.error timeoutMsg ∧
    classifyFailure timeoutMsg = timeoutMsg ∧
    ∀ q ∈ (processPhoto photos hk photo env).photos, q.id = photo.id →
      q.status = Status.error ∧ q.error = some timeoutMsg := by
  have hrace : raceOutcome env.convDelay env.restore = Except.error timeoutMsg := by
    cases hs : env.restore.settle with
    | none => simp only [raceOutcome, hs]
    | some dr =>
      cases dr with
      | mk d res =>
        have hle := hlate d res hs
        simp only [raceOutcome, hs]
        rw [if_neg (by omega)]
  have hcl : classifyFailure timeoutMsg = timeoutMsg := by decide
  refine ⟨hrace, hcl, ?_⟩
  have hg := eligible_not_guarded photo helig
  intro q hq hid
  have hpp : processPhoto photos hk photo env =
      ⟨(photos.map (startOne photo.id)).map (failOne photo.id (classifyFailure timeoutMsg)),
        (if strContains timeoutMsg "Requested entity was not found" then some false else hk),
        1⟩ := by
    unfold processPhoto
    rw [if_neg hg, hrace]
  rw [hpp] at hq
  have hm := mem_fail_map photo.id (classifyFailure timeoutMsg) photos q hq hid
  rw [hcl] at hm
  exact hm

/-- C6 witness: a restoration that only settles at the deadline (and would
settle successfully) still leaves the concrete item in `error` with the
timeout message. -/
theorem c6_witness :
    c6final.status = Status.error ∧ c6final.error = some timeoutMsg :=
  (c6_amended [c6photo] none c6photo c6env (Or.inl rfl)
      (fun d res hs => by
        have h3 : (90000 : Nat) = d := congrArg Prod.fst (Option.some.inj hs)
        subst h3
        decide)).2.2 c6final (by decide) rfl

/-! ## C7 -/

def c7done : PhotoItem :=
  ⟨"id7", wfileA, "blob:a.png", Status.completed, some "r", none, initialAdjustments⟩

def c7pend : PhotoItem :=
  ⟨"id7b", wfileA, "blob:a.png", Status.pending, none, none, initialAdjustments⟩

def c7env : ProcEnv := ⟨0, ⟨some (0, Except.ok "IMG")⟩⟩

/-- C7: a start request on an item whose status is `processing` or
`completed` is a silent no-op — the collection, the credential flag and the
number of issued restoration calls (zero) are all unchanged; on a `pending`
or `error` item it issues exactly one restoration call, every matching item
passes through the `processing` state, and the final collection is the raced
outcome applied on top of that start transition. -/
theorem c7_theorem (photos : List PhotoItem) (hk : Option Bool) (photo : PhotoItem)
    (env : ProcEnv) :
    ((photo.status = Status.processing ∨ photo.status = Status.completed) →
      processPhoto photos hk photo env = ⟨photos, hk, 0⟩) ∧
    ((photo.status = Status.pending ∨ photo.status = Status.error) →
      (processPhoto photos hk photo env).remoteCalls = 1 ∧
      (∀ q ∈ photos.map (startOne photo.id), q.id = photo.id →
        q.status = Status.processing) ∧
      (processPhoto photos hk photo env).photos =
        (match raceOutcome env.convDelay env.restore with
          | Except.ok res => (photos.map (startOne photo.id)).map (completeOne photo.id res)
          | Except.error msg =>
              (photos.map (startOne photo.id)).map
                (failOne photo.id (classifyFailure msg)))) := by
  constructor
  · intro h
    unfold processPhoto
    rw [if_pos h]
  · intro h
    have hg := eligible_not_guarded photo h
    refine ⟨?_, ?_, ?_⟩
    · unfold processPhoto
      rw [if_neg hg]
      cases raceOutcome env.convDelay env.restore <;> rfl
    · intro q hq hid
      rcases List.mem_map.mp hq with ⟨p, hp, rfl⟩
      have hpid : p.id = photo.id := by
        rw [startOne_id] at hid
        exact hid
      unfold startOne
      rw [if_pos hpid]
    · unfold processPhoto
      rw [if_neg hg]
      cases raceOutcome env.convDelay env.restore <;> rfl

/-- C7 witness: a completed item is left untouched with zero calls; a
pending item issues exactly one call. -/
theorem c7_witness :
    processPhoto [c7done] none c7done c7env = ⟨[c7done], none, 0⟩ ∧
    (processPhoto [c7pend] none c7pend c7env).remoteCalls = 1 :=
  ⟨(c7_theorem [c7done] none c7done c7env).1 (Or.inr rfl),
    ((c7_theorem [c7pend] none c7pend c7env).2 (Or.inl rfl)).1⟩

/-! ## C10 -/

theorem getAdj_setAdj_self (a : Adjustments) (k : AdjKey) (v : Int) :
    getAdj (setAdj a k v) k = v := by
  cases k <;> rfl

theorem getAdj_setAdj_ne (a : Adjustments) (k k2 : AdjKey) (v : Int) (h : k2 ≠ k) :
    getAdj (setAdj a k v) k2 = getAdj a k2 := by
  cases k <;> cases k2 <;> first | rfl | exact absurd rfl h

def c10a : PhotoItem :=
  ⟨"idA", c8file1, "blob:x.png", Status.completed, some "r", none, initialAdjustments⟩

def c10b : PhotoItem :=
  ⟨"idB", c8file2, "blob:y.png", Status.pending, none, none, initialAdjustments⟩

/-- C10: `updateAdjustment` preserves the collection length; every item
whose id differs from the target is returned unchanged, and the matching
item keeps its id, file, preview, status, result and error fields, receives
the given value at the named key, and keeps every other adjustment value. -/
theorem c10_theorem (photos : List PhotoItem) (targetId : String) (k : AdjKey) (v : Int) :
    (updateAdjustment photos targetId k v).length = photos.length ∧
    ∀ j (hj : j < photos.length) (hj2 : j < (updateAdjustment photos targetId k v).length),
      ((photos.get ⟨j, hj⟩).id ≠ targetId →
        (updateAdjustment photos targetId k v).get ⟨j, hj2⟩ = photos.get ⟨j, hj⟩) ∧
      ((photos.get ⟨j, hj⟩).id = targetId →
        ((updateAdjustment photos targetId k v).get ⟨j, hj2⟩).id =
          (photos.get ⟨j, hj⟩).id ∧
        ((updateAdjustment photos targetId k v).get ⟨j, hj2⟩).file =
          (photos.get ⟨j, hj⟩).file ∧
        ((updateAdjustment photos targetId k v).get ⟨j, hj2⟩).preview =
          (photos.get ⟨j, hj⟩).preview ∧
        ((updateAdjustment photos targetId k v).get ⟨j, hj2⟩).status =
          (photos.get ⟨j, hj⟩).status ∧
        ((updateAdjustment photos targetId k v).get ⟨j, hj2⟩).result =
          (photos.get ⟨j, hj⟩).result ∧
        ((updateAdjustment photos targetId k v).get ⟨j, hj2⟩).error =
          (photos.get ⟨j, hj⟩).error ∧
        getAdj (((updateAdjustment photos targetId k v).get ⟨j, hj2⟩).adjustments) k = v ∧
        ∀ k2, k2 ≠ k →
          getAdj (((updateAdjustment photos targetId k v).get ⟨j, hj2⟩).adjustments) k2 =
            getAdj ((photos.get ⟨j, hj⟩).adjustments) k2) := by
  constructor
  · simp [updateAdjustment]
  · intro j hj hj2
    have hg : (updateAdjustment photos targetId k v).get ⟨j, hj2⟩ =
        adjustOne targetId k v (photos.get ⟨j, hj⟩) := by
      simp [updateAdjustment, List.get_eq_getElem, List.getElem_map]
    constructor
    · intro hne
      rw [hg]
      unfold adjustOne
      rw [if_neg hne]
    · intro heq
      rw [hg]
      unfold adjustOne
      rw [if_pos heq]
      refine ⟨rfl, rfl, rfl, rfl, rfl, rfl, getAdj_setAdj_self _ _ _, ?_⟩
      intro k2 hk2
      exact getAdj_setAdj_ne _ _ _ _ hk2

/-- C10 witness: on a concrete two-item collection, adjusting brightness of
the first item leaves the second untouched, stores the value, and keeps the
the saturation of the first item. -/
theorem c10_witness :
    (updateAdjustment [c10a, c10b] "idA" AdjKey.brightness 120).get ⟨1, by decide⟩ =
      c10b ∧
    getAdj (((updateAdjustment [c10a, c10b] "idA" AdjKey.brightness 120).get
        ⟨0, by decide⟩).adjustments) AdjKey.brightness = 120 ∧
    getAdj (((updateAdjustment [c10a, c10b] "idA" AdjKey.brightness 120).get
        ⟨0, by decide⟩).adjustments) AdjKey.saturation =
      getAdj (c10a.adjustments) AdjKey.saturation := by
  have h := c10_theorem [c10a, c10b] "idA" AdjKey.brightness 120
  have h1 := (h.2 1 (by decide) (by decide)).1 (by decide)
  have h0 := (h.2 0 (by decide) (by decide)).2 rfl
  exact ⟨h1, h0.2.2.2.2.2.2.1, h0.2.2.2.2.2.2.2 AdjKey.saturation (by decide)⟩

/-! ## Batch lemmas for C4 -/

theorem eligible_status (p : PhotoItem) (h : eligible p = true) :
    p.status = Status.pending ∨ p.status = Status.error := by
  unfold eligible at h
  by_cases hc : p.status = Status.pending ∨ p.status = Status.error
  · exact hc
  · rw [if_neg hc] at h
    exact absurd h Bool.false_ne_true

theorem processPhoto_ok (s : List PhotoItem) (hk : Option Bool) (photo : PhotoItem)
    (env : ProcEnv) (res : String)
    (hg : ¬ (photo.status = Status.processing ∨ photo.status = Status.completed))
    (hr : raceOutcome env.convDelay env.restore = Except.ok res) :
    processPhoto s hk photo env =
      ⟨(s.map (startOne photo.id)).map (completeOne photo.id res), hk, 1⟩ := by
  unfold processPhoto
  rw [if_neg hg, hr]

theorem processPhoto_err (s : List PhotoItem) (hk : Option Bool) (photo : PhotoItem)
    (env : ProcEnv) (msg : String)
    (hg : ¬ (photo.status = Status.processing ∨ photo.status = Status.completed))
    (hr : raceOutcome env.convDelay env.restore = Except.error msg) :
    processPhoto s hk photo env =
      ⟨(s.map (startOne photo.id)).map (failOne photo.id (classifyFailure msg)),
        (if strContains msg "Requested entity was not found" then some false else hk), 1⟩ := by
  unfold processPhoto
  rw [if_neg hg, hr]

/-- the pointwise relation between the collection before and after one
iteration of the batch loop processing the snapshot element with id `a`:
length and ids are preserved, non-matching items are untouched, and
matching items end in `completed` or `error`. -/
def StepRel (a : String) (s S2 : List PhotoItem) : Prop :=
  S2.length = s.length ∧
  ∀ j (hj : j < s.length) (hjS : j < S2.length),
    (S2.get ⟨j, hjS⟩).id = (s.get ⟨j, hj⟩).id ∧
    ((s.get ⟨j, hj⟩).id ≠ a → S2.get ⟨j, hjS⟩ = s.get ⟨j, hj⟩) ∧
    ((s.get ⟨j, hj⟩).id = a →
      (S2.get ⟨j, hjS⟩).status = Status.completed ∨
      (S2.get ⟨j, hjS⟩).status = Status.error)

theorem mapmap_steprel (a : String) (g : PhotoItem → PhotoItem) (s : List PhotoItem)
    (hgid : ∀ p, (g p).id = p.id)
    (hgkeep : ∀ p : PhotoItem, p.id ≠ a → g (startOne a p) = p)
    (hgdone : ∀ p : PhotoItem, p.id = a →
      (g (startOne a p)).status = Status.completed ∨
      (g (startOne a p)).status = Status.error) :
    StepRel a s ((s.map (startOne a)).map g) := by
  constructor
  · simp
  · intro j hj hjS
    have hS2j : ((s.map (startOne a)).map g).get ⟨j, hjS⟩ =
        g (startOne a (s.get ⟨j, hj⟩)) := by
      simp [List.get_eq_getElem, List.getElem_map]
    refine ⟨?_, ?_, ?_⟩
    · rw [hS2j, hgid, startOne_id]
    · intro hne
      rw [hS2j, hgkeep _ hne]
    · intro heq
      rw [hS2j]
      exact hgdone _ heq

theorem processStep_rel (envs : PhotoItem → ProcEnv) (s : List PhotoItem)
    (hk : Option Bool) (calls : Nat) (x : PhotoItem) (hex : eligible x = true) :
    ∃ S2 K2, processStep envs ⟨s, hk, calls⟩ x = ⟨S2, K2, calls + 1⟩ ∧
      StepRel x.id s S2 := by
  have hg := eligible_not_guarded x (eligible_status x hex)
  have hunfold : processStep envs ⟨s, hk, calls⟩ x =
      ⟨(processPhoto s hk x (envs x)).photos, (processPhoto s hk x (envs x)).hasApiKey,
        calls + (processPhoto s hk x (envs x)).remoteCalls⟩ := rfl
  cases hr : raceOutcome (envs x).convDelay (envs x).restore with
  | ok res =>
    refine ⟨(s.map (startOne x.id)).map (completeOne x.id res), hk, ?_, ?_⟩
    · rw [hunfold, processPhoto_ok s hk x (envs x) res hg hr]
    · exact mapmap_steprel x.id (completeOne x.id res) s
        (completeOne_id x.id res)
        (fun p hne => by rw [complete_start, if_neg hne])
        (fun p heq => by
          rw [complete_start, if_pos heq]
          left
          rfl)
  | error msg =>
    refine ⟨(s.map (startOne x.id)).map (failOne x.id (classifyFailure msg)),
      (if strContains msg "Requested entity was not found" then some false else hk), ?_, ?_⟩
    · rw [hunfold, processPhoto_err s hk x (envs x) msg hg hr]
    · exact mapmap_steprel x.id (failOne x.id (classifyFailure msg)) s
        (failOne_id x.id (classifyFailure msg))
        (fun p hne => by rw [fail_start, if_neg hne])
        (fun p heq => by
          rw [fail_start, if_pos heq]
          right
          rfl)

theorem runBatch_spec (envs : PhotoItem → ProcEnv) (l : List PhotoItem) :
    ∀ (s : List PhotoItem) (hk : Option Bool) (calls : Nat),
      (∀ x ∈ l, eligible x = true) →
      (runBatch envs l ⟨s, hk, calls⟩).photos.length = s.length ∧
      (runBatch envs l ⟨s, hk, calls⟩).remoteCalls = calls + l.length ∧
      ∀ j (hj : j < s.length) (hj2 : j < (runBatch envs l ⟨s, hk, calls⟩).photos.length),
        ((runBatch envs l ⟨s, hk, calls⟩).photos.get ⟨j, hj2⟩).id = (s.get ⟨j, hj⟩).id ∧
        ((∀ z ∈ l, z.id ≠ (s.get ⟨j, hj⟩).id) →
          (runBatch envs l ⟨s, hk, calls⟩).photos.get ⟨j, hj2⟩ = s.get ⟨j, hj⟩) ∧
        ((∃ z ∈ l, z.id = (s.get ⟨j, hj⟩).id) →
          ((runBatch envs l ⟨s, hk, calls⟩).photos.get ⟨j, hj2⟩).status = Status.completed ∨
          ((runBatch envs l ⟨s, hk, calls⟩).photos.get ⟨j, hj2⟩).status = Status.error) := by
  induction l with
  | nil =>
    intro s hk calls _
    refine ⟨rfl, by simp [runBatch], ?_⟩
    intro j hj hj2
    refine ⟨rfl, fun _ => rfl, ?_⟩
    intro hex
    obtain ⟨z, hz, _⟩ := hex
    exact absurd hz (List.not_mem_nil z)
  | cons x t ih =>
    intro s hk calls hl
    have hex : eligible x = true := hl x (List.mem_cons_self x t)
    have hlt : ∀ z ∈ t, eligible z = true := fun z hz => hl z (List.mem_cons_of_mem x hz)
    obtain ⟨S2, K2, hstep, hlen2, hrelj⟩ := processStep_rel envs s hk calls x hex
    have hrun : runBatch envs (x :: t) ⟨s, hk, calls⟩ =
        runBatch envs t ⟨S2, K2, calls + 1⟩ := by
      show runBatch envs t (processStep envs ⟨s, hk, calls⟩ x) = _
      rw [hstep]
    rw [hrun]
    obtain ⟨ihlen, ihcalls, ihj⟩ := ih S2 K2 (calls + 1) hlt
    refine ⟨?_, ?_, ?_⟩
    · rw [ihlen, hlen2]
    · rw [ihcalls]
      simp only [List.length_cons]
      omega
    · intro j hj hj2
      have hjS : j < S2.length := by
        rw [hlen2]
        exact hj
      obtain ⟨hid1, hkeep1, hdone1⟩ := hrelj j hj hjS
      obtain ⟨hid2, hkeep2, hdone2⟩ := ihj j hjS hj2
      refine ⟨?_, ?_, ?_⟩
      · rw [hid2, hid1]
      · intro hne
        have hS : S2.get ⟨j, hjS⟩ = s.get ⟨j, hj⟩ :=
          hkeep1 (Ne.symm (hne x (List.mem_cons_self x t)))
        have hfin := hkeep2 (fun z hz => by
          rw [hid1]
          exact hne z (List.mem_cons_of_mem x hz))
        rw [hfin, hS]
      · intro hex2
        by_cases hxs : ∃ z ∈ t, z.id = (s.get ⟨j, hj⟩).id
        · apply hdone2
          obtain ⟨z, hz, hzid⟩ := hxs
          exact ⟨z, hz, by rw [hid1]; exact hzid⟩
        · have hxid : x.id = (s.get ⟨j, hj⟩).id := by
            obtain ⟨z, hz, hzid⟩ := hex2
            rcases List.mem_cons.mp hz with rfl | hzt
            · exact hzid
            · exact absurd ⟨z, hzt, hzid⟩ hxs
          have hS2st := hdone1 hxid.symm
          have hfin : (runBatch envs t ⟨S2, K2, calls + 1⟩).photos.get ⟨j, hj2⟩ =
              S2.get ⟨j, hjS⟩ := by
            apply hkeep2
            intro z hz hcontra
            rw [hid1] at hcontra
            exact hxs ⟨z, hz, hcontra⟩
          rw [hfin]
          exact hS2st

/-! ## C4 -/

def c4a : PhotoItem :=
  ⟨"c4a", wfileA, "blob:a.png", Status.pending, none, none, initialAdjustments⟩

def c4b : PhotoItem :=
  ⟨"c4b", wfileA, "blob:a.png", Status.completed, some "r", none, initialAdjustments⟩

def c4envs : PhotoItem → ProcEnv := fun _ => ⟨0, ⟨none⟩⟩

/-- C4: `processAll` snapshots the eligible subset (status pending or
error) at call time and folds `processPhoto` over that snapshot in order;
it issues exactly one restoration call per snapshot element (so a failure
of one item never aborts the rest), leaves every item that was eligible at
call time in status `completed` or `error`, and leaves every item whose id
matches no eligible snapshot element untouched. -/
theorem c4_theorem (photos : List PhotoItem) (hk : Option Bool)
    (envs : PhotoItem → ProcEnv) :
    (processAll photos hk envs).remoteCalls = (photos.filter eligible).length ∧
    (processAll photos hk envs).photos.length = photos.length ∧
    ∀ j (hj : j < photos.length) (hj2 : j < (processAll photos hk envs).photos.length),
      (eligible (photos.get ⟨j, hj⟩) = true →
        ((processAll photos hk envs).photos.get ⟨j, hj2⟩).status = Status.completed ∨
        ((processAll photos hk envs).photos.get ⟨j, hj2⟩).status = Status.error) ∧
      ((∀ z ∈ photos, eligible z = true → z.id ≠ (photos.get ⟨j, hj⟩).id) →
        (processAll photos hk envs).photos.get ⟨j, hj2⟩ = photos.get ⟨j, hj⟩) := by
  have hl : ∀ x ∈ photos.filter eligible, eligible x = true :=
    fun x hx => (List.mem_filter.mp hx).2
  obtain ⟨hlen, hcalls, hjall⟩ :=
    runBatch_spec envs (photos.filter eligible) photos hk 0 hl
  refine ⟨?_, hlen, ?_⟩
  · rw [show (processAll photos hk envs).remoteCalls =
        (runBatch envs (photos.filter eligible) ⟨photos, hk, 0⟩).remoteCalls from rfl,
      hcalls]
    omega
  · intro j hj hj2
    obtain ⟨hid, hkeep, hdone⟩ := hjall j hj hj2
    constructor
    · intro helig
      apply hdone
      exact ⟨photos.get ⟨j, hj⟩,
        List.mem_filter.mpr ⟨List.get_mem photos j hj, helig⟩, rfl⟩
    · intro hne
      apply hkeep
      intro z hz
      have hzmem := List.mem_filter.mp hz
      exact hne z hzmem.1 hzmem.2

/-- C4 witness: on a concrete batch with one pending and one completed
item and a never-settling remote call, exactly one call is issued, the
eligible item ends in `completed` or `error`, and the completed item
(matching no eligible id) is untouched. -/
theorem c4_witness :
    (processAll [c4a, c4b] none c4envs).remoteCalls =
      ([c4a, c4b].filter eligible).length ∧
    (((processAll [c4a, c4b] none c4envs).photos.get ⟨0, by decide⟩).status =
        Status.completed ∨
      ((processAll [c4a, c4b] none c4envs).photos.get ⟨0, by decide⟩).status =
        Status.error) ∧
    (processAll [c4a, c4b] none c4envs).photos.get ⟨1, by decide⟩ =
      [c4a, c4b].get ⟨1, by decide⟩ := by
  have h := c4_theorem [c4a, c4b] none c4envs
  refine ⟨h.1, ?_, ?_⟩
  · exact (h.2.2 0 (by decide) (by decide)).1 (by decide)
  · exact (h.2.2 1 (by decide) (by decide)).2 (by decide)
